import Mathlib

/-!
Shallow embedding of the ps2_spi_sniff firmware (final iteration in
src/unnamed/part_002, earlier iteration in src/spi_sniff.ino) and proofs
about its ring buffer, capture path, index arithmetic, synchronization
accounting and reporter pass.

Machine integers are modelled as Nat or Int with explicit reductions
modulo the relevant power of two: `unsigned int` on the AVR target is 16
bits wide, `byte` is 8 bits, `int` is modelled as Int (its values in the
verified code paths stay far from the 16-bit boundary).
-/

namespace PS2Sniff

/-- Number of values of an `unsigned int` on the target: 2 to the 16. -/
def uintMod : Nat := 65536

/-- The C statement `int diff = *writes - *reads;` at counter width w:
the subtraction happens on w-bit unsigned values and wraps, and the
result is then reinterpreted as a signed twos-complement value. Counter
inputs are w-bit values, that is, below 2 to the w. -/
def diffCalc (w writes reads : Nat) : Int :=
  let d := (writes + (2 ^ w - reads)) % 2 ^ w
  if (d : Int) < 2 ^ (w - 1) then (d : Int) else (d : Int) - 2 ^ w

/-- The `unsigned int items` value computed at the start of buff_write at
counter width w: `if (diff < 0) items = UINT_MAX - diff; else items = diff;`
with the subtraction again performed in w-bit unsigned arithmetic. -/
def itemsCalc (w writes reads : Nat) : Nat :=
  let diff := diffCalc w writes reads
  if diff < 0 then (((2 ^ w - 1 : Nat) : Int) - diff).toNat % 2 ^ w
  else diff.toNat

/-- State of one ring buffer: the byte slots together with the two
monotonic (16-bit wrapping) counters of successful reads and writes. -/
structure Buff where
  data : List Nat
  reads : Nat
  writes : Nat
deriving DecidableEq

/-- Number of unread items in the buffer: the difference of the two
16-bit counters taken modulo the counter width. -/
def unread (s : Buff) : Nat := (s.writes + (uintMod - s.reads)) % uintMod

/-- Embedding of buff_write from src/unnamed/part_002 (lines 123-185):
computes `items`, bails with false when `items == capacity`, otherwise
stores the item at `*writes & (capacity - 1)` and increments the 16-bit
write counter. -/
def buff_write (item capacity : Nat) (s : Buff) : Bool × Buff :=
  if itemsCalc 16 s.writes s.reads = capacity then (false, s)
  else
    let tail := s.writes &&& (capacity - 1)
    (true, ⟨s.data.set tail item, s.reads, (s.writes + 1) % uintMod⟩)

/-- Embedding of buff_read from src/unnamed/part_002 (lines 187-205).
The first result is the return value, the second the value of `*item`
after the call (unchanged when the buffer is empty), the third the
buffer state after the call. -/
def buff_read (item capacity : Nat) (s : Buff) : Bool × Nat × Buff :=
  if s.writes = s.reads then (false, item, s)
  else
    let head := s.reads &&& (capacity - 1)
    (true, s.data.getD head 0, ⟨s.data, (s.reads + 1) % uintMod, s.writes⟩)

/-- One 1P1C operation on a buffer: either the producer calls buff_write
with some item, or the consumer calls buff_read. -/
inductive BuffStep (cap : Nat) : Buff → Buff → Prop where
  | write (item : Nat) (s : Buff) : BuffStep cap s (buff_write item cap s).2
  | read (item : Nat) (s : Buff) : BuffStep cap s (buff_read item cap s).2.2

/-- Buffer states reachable from the initial state (both counters zero,
as the globals are zero-initialized) by interleaved writes and reads. -/
inductive BuffReach (cap : Nat) : Buff → Prop where
  | init (data : List Nat) : BuffReach cap ⟨data, 0, 0⟩
  | step {s t : Buff} : BuffReach cap s → BuffStep cap s t → BuffReach cap t

theorem itemsCalc_16 (writes reads : Nat) :
    itemsCalc 16 writes reads =
      if (writes + (65536 - reads)) % 65536 < 32768
      then (writes + (65536 - reads)) % 65536
      else 65535 - (writes + (65536 - reads)) % 65536 := by
  simp only [itemsCalc, diffCalc]
  norm_num
  split_ifs <;> omega

theorem buff_inv (cap : Nat) (hcap : cap < 32768) :
    ∀ {s : Buff}, BuffReach cap s →
      s.reads < 65536 ∧ s.writes < 65536 ∧ unread s ≤ cap := by
  intro s0 h
  induction h with
  | init data => simp [unread, uintMod]
  | @step t u hr hstep ih =>
    obtain ⟨h1, h2, h3⟩ := ih
    cases hstep with
    | write item =>
      by_cases hfull : itemsCalc 16 t.writes t.reads = cap
      · have he : (buff_write item cap t).2 = t := by simp [buff_write, hfull]
        rw [he]; exact ⟨h1, h2, h3⟩
      · have hd := itemsCalc_16 t.writes t.reads
        simp only [unread, uintMod] at h3 ⊢
        have hlt : (t.writes + (65536 - t.reads)) % 65536 < 32768 := by omega
        rw [if_pos hlt] at hd
        simp only [buff_write, hfull, if_neg, ite_false]
        refine ⟨h1, ?_, ?_⟩ <;> simp only [uintMod] <;> omega
    | read item =>
      by_cases hempty : t.writes = t.reads
      · have he : (buff_read item cap t).2.2 = t := by simp [buff_read, hempty]
        rw [he]; exact ⟨h1, h2, h3⟩
      · simp only [unread, uintMod] at h3 ⊢
        simp only [buff_read, hempty, if_neg, ite_false]
        refine ⟨?_, h2, ?_⟩ <;> simp only [uintMod] <;> omega

/-- C1: for every buffer state reachable by interleaved buff_write and
buff_read calls under the 1P1C discipline, the number of unread items
(writes minus reads modulo the counter width) never exceeds the
capacity, and buff_write returns failure exactly when the buffer holds
capacity unread items. Capacity is a positive C int, hence below 32768. -/
theorem ringbuffer_capacity_invariant (cap : Nat) (hcap : cap < 32768)
    {s : Buff} (h : BuffReach cap s) (item : Nat) :
    unread s ≤ cap ∧ ((buff_write item cap s).1 = false ↔ unread s = cap) := by
  obtain ⟨h1, h2, h3⟩ := buff_inv cap hcap h
  refine ⟨h3, ?_⟩
  have hd := itemsCalc_16 s.writes s.reads
  have hlt : (s.writes + (65536 - s.reads)) % 65536 < 32768 := by
    simp only [unread, uintMod] at h3; omega
  rw [if_pos hlt] at hd
  have hu : itemsCalc 16 s.writes s.reads = unread s := by
    simp only [unread, uintMod]; omega
  have hiff : (buff_write item cap s).1 = false ↔
      itemsCalc 16 s.writes s.reads = cap := by
    by_cases hc : itemsCalc 16 s.writes s.reads = cap <;> simp [buff_write, hc]
  rw [hiff, hu]

/-- Witness for C1: capacity 8, the initial empty buffer state. -/
theorem ringbuffer_capacity_invariant_witness :
    unread ⟨[], 0, 0⟩ ≤ 8 ∧
      ((buff_write 0 8 ⟨[], 0, 0⟩).1 = false ↔ unread ⟨[], 0, 0⟩ = 8) :=
  ringbuffer_capacity_invariant 8 (by norm_num) (BuffReach.init []) 0

/-- C2 (code bug): the items computation in buff_write does not equal the
true modular difference once that difference reaches half the counter
range. At the 8-bit analogue named by the spec, writes 250 and reads 10
(true wrapped difference 240), the code computes 15; at the actual
16-bit width, writes 65526 and reads 10 (true difference 65516), the
code computes 19. The negative-diff branch computes UINT_MAX - diff,
which differs from the correct value diff + UINT_MAX + 1. -/
theorem items_in_buffer_wraparound_bug :
    itemsCalc 8 250 10 = 15 ∧ (250 + (256 - 10)) % 256 = 240 ∧
    itemsCalc 8 250 10 ≠ (250 + (256 - 10)) % 256 ∧
    itemsCalc 16 65526 10 = 19 ∧ (65526 + (65536 - 10)) % 65536 = 65516 ∧
    itemsCalc 16 65526 10 ≠ (65526 + (65536 - 10)) % 65536 := by decide

/-- C3: when the computed item count equals capacity, buff_write returns
false and mutates nothing; otherwise it stores the item at slot
writes mod capacity (the bitwise mask in the source agrees with mod for
a power-of-two capacity), increments the 16-bit write counter, and
returns true. -/
theorem buff_write_full_rejects_else_appends (cap k item : Nat)
    (hk : cap = 2 ^ k) (s : Buff) :
    (itemsCalc 16 s.writes s.reads = cap → buff_write item cap s = (false, s)) ∧
    (itemsCalc 16 s.writes s.reads ≠ cap →
      buff_write item cap s =
        (true, ⟨s.data.set (s.writes % cap) item, s.reads,
                (s.writes + 1) % uintMod⟩)) := by
  subst hk
  constructor
  · intro h; simp [buff_write, h]
  · intro h; simp [buff_write, h, Nat.and_pow_two_sub_one_eq_mod]

/-- Witness for C3: capacity 8, one full state and one empty state. -/
theorem buff_write_full_rejects_else_appends_witness :
    buff_write 5 8 ⟨[9, 9, 9, 9, 9, 9, 9, 9], 0, 8⟩ =
      (false, ⟨[9, 9, 9, 9, 9, 9, 9, 9], 0, 8⟩) ∧
    buff_write 5 8 ⟨[9, 9, 9, 9, 9, 9, 9, 9], 0, 0⟩ =
      (true, ⟨([9, 9, 9, 9, 9, 9, 9, 9] : List Nat).set (0 % 8) 5, 0,
              (0 + 1) % uintMod⟩) :=
  ⟨(buff_write_full_rejects_else_appends 8 3 5 rfl
      ⟨[9, 9, 9, 9, 9, 9, 9, 9], 0, 8⟩).1 (by decide),
   (buff_write_full_rejects_else_appends 8 3 5 rfl
      ⟨[9, 9, 9, 9, 9, 9, 9, 9], 0, 0⟩).2 (by decide)⟩

/-- C4: when the write and read counters are equal, buff_read returns
false and mutates neither the out-parameter, the storage, nor the read
counter; otherwise it copies the byte at slot reads mod capacity into
the out-parameter, increments the 16-bit read counter, and returns
true. -/
theorem buff_read_empty_rejects_else_pops (cap k item : Nat)
    (hk : cap = 2 ^ k) (s : Buff) :
    (s.writes = s.reads → buff_read item cap s = (false, item, s)) ∧
    (s.writes ≠ s.reads →
      buff_read item cap s =
        (true, s.data.getD (s.reads % cap) 0,
         ⟨s.data, (s.reads + 1) % uintMod, s.writes⟩)) := by
  subst hk
  constructor
  · intro h; simp [buff_read, h]
  · intro h; simp [buff_read, h, Nat.and_pow_two_sub_one_eq_mod]

/-- Witness for C4: capacity 8, one empty state and one nonempty state. -/
theorem buff_read_empty_rejects_else_pops_witness :
    buff_read 7 8 ⟨[3, 4, 5, 6, 7, 8, 9, 10], 2, 2⟩ =
      (false, 7, ⟨[3, 4, 5, 6, 7, 8, 9, 10], 2, 2⟩) ∧
    buff_read 7 8 ⟨[3, 4, 5, 6, 7, 8, 9, 10], 2, 4⟩ =
      (true, ([3, 4, 5, 6, 7, 8, 9, 10] : List Nat).getD (2 % 8) 0,
       ⟨[3, 4, 5, 6, 7, 8, 9, 10], (2 + 1) % uintMod, 4⟩) :=
  ⟨(buff_read_empty_rejects_else_pops 8 3 7 rfl
      ⟨[3, 4, 5, 6, 7, 8, 9, 10], 2, 2⟩).1 rfl,
   (buff_read_empty_rejects_else_pops 8 3 7 rfl
      ⟨[3, 4, 5, 6, 7, 8, 9, 10], 2, 4⟩).2 (by decide)⟩

/-- Embedding of unsynched_head from src/unnamed/part_002 (lines
382-386). All arguments are C ints; the C % operator truncates toward
zero, which is Int.tmod. -/
def unsynched_head (unsynched log_tail log_size : Int) : Int :=
  Int.tmod ((log_tail - unsynched - 1) + 2 * log_size) log_size

/-- Embedding of unreported_head from src/unnamed/part_002 (lines
388-391). -/
def unreported_head (unreported unsynched log_tail log_size : Int) : Int :=
  let uhead := unsynched_head unsynched log_tail log_size
  Int.tmod ((uhead - unreported) + log_size) log_size

theorem tmod_eq_emod_of_nonneg (a b : Int) (ha : 0 ≤ a) (hb : 0 ≤ b) :
    Int.tmod a b = a % b :=
  Int.tmod_eq_emod ha hb

/-- C5 (counterexample): at count 0, tail 0, capacity 8 (valid inputs),
unsynched_head returns 7, and advancing 0 positions from 7 lands at 7,
not at the tail 0. -/
theorem unsynched_head_misses_tail_by_one :
    unsynched_head 0 0 8 = 7 ∧ Int.tmod (unsynched_head 0 0 8 + 0) 8 ≠ 0 := by
  decide

/-- C5 (amended): for valid inputs, unsynched_head returns a value h in
the interval from 0 up to, excluding, capacity such that advancing
count plus one positions from h lands exactly at tail; likewise
unreported_head lands at tail after advancing unreported plus unsynched
plus one positions. -/
theorem unsynched_head_lands_one_before_tail
    (count tail cap : Int) (h1 : 0 ≤ count) (h2 : count < cap)
    (h3 : 0 ≤ tail) (h4 : tail < cap) :
    (0 ≤ unsynched_head count tail cap ∧ unsynched_head count tail cap < cap ∧
     Int.tmod (unsynched_head count tail cap + count + 1) cap = tail) ∧
    (∀ unreported : Int, 0 ≤ unreported → unreported ≤ cap →
      0 ≤ unreported_head unreported count tail cap ∧
      unreported_head unreported count tail cap < cap ∧
      Int.tmod (unreported_head unreported count tail cap + unreported + count + 1)
        cap = tail) := by
  have hcap : 0 < cap := lt_of_le_of_lt h1 h2
  have hne : cap ≠ 0 := ne_of_gt hcap
  have harg : 0 ≤ (tail - count - 1) + 2 * cap := by omega
  have hh : unsynched_head count tail cap =
      ((tail - count - 1) + 2 * cap) % cap := by
    unfold unsynched_head
    exact tmod_eq_emod_of_nonneg _ _ harg (le_of_lt hcap)
  have hlo : 0 ≤ unsynched_head count tail cap := by
    rw [hh]; exact Int.emod_nonneg _ hne
  have hhi : unsynched_head count tail cap < cap := by
    rw [hh]; exact Int.emod_lt_of_pos _ hcap
  have hland : Int.tmod (unsynched_head count tail cap + count + 1) cap = tail := by
    rw [tmod_eq_emod_of_nonneg _ _ (by omega) (le_of_lt hcap), hh, add_assoc,
        Int.emod_add_emod, ← add_assoc]
    have he : tail - count - 1 + 2 * cap + (count + 1) = tail + cap * 2 := by ring
    rw [add_assoc, he, Int.add_mul_emod_self_left, Int.emod_eq_of_lt h3 h4]
  refine ⟨⟨hlo, hhi, hland⟩, ?_⟩
  intro ur hu1 hu2
  have harg2 : 0 ≤ (unsynched_head count tail cap - ur) + cap := by omega
  have hh2 : unreported_head ur count tail cap =
      ((unsynched_head count tail cap - ur) + cap) % cap := by
    unfold unreported_head
    exact tmod_eq_emod_of_nonneg _ _ harg2 (le_of_lt hcap)
  have hlo2 : 0 ≤ unreported_head ur count tail cap := by
    rw [hh2]; exact Int.emod_nonneg _ hne
  have hhi2 : unreported_head ur count tail cap < cap := by
    rw [hh2]; exact Int.emod_lt_of_pos _ hcap
  refine ⟨hlo2, hhi2, ?_⟩
  rw [tmod_eq_emod_of_nonneg _ _ (by omega) (le_of_lt hcap), hh2]
  have he2 : (unsynched_head count tail cap - ur + cap) % cap + ur + count + 1 =
      (unsynched_head count tail cap - ur + cap) % cap + (ur + count + 1) := by
    ring
  rw [he2, Int.emod_add_emod]
  have he3 : unsynched_head count tail cap - ur + cap + (ur + count + 1) =
      (unsynched_head count tail cap + count + 1) + cap * 1 := by ring
  rw [he3, Int.add_mul_emod_self_left,
      ← tmod_eq_emod_of_nonneg _ _ (by omega) (le_of_lt hcap), hland]

/-- Witness for the amended C5: count 3, tail 2, capacity 8, and
unreported 4. -/
theorem unsynched_head_lands_one_before_tail_witness :
    ((0 ≤ unsynched_head 3 2 8 ∧ unsynched_head 3 2 8 < 8 ∧
      Int.tmod (unsynched_head 3 2 8 + 3 + 1) 8 = 2) ∧
     (0 ≤ unreported_head 4 3 2 8 ∧ unreported_head 4 3 2 8 < 8 ∧
      Int.tmod (unreported_head 4 3 2 8 + 4 + 3 + 1) 8 = 2)) :=
  have h := unsynched_head_lands_one_before_tail 3 2 8 (by norm_num)
    (by norm_num) (by norm_num) (by norm_num)
  ⟨h.1, h.2 4 (by norm_num) (by norm_num)⟩

/-- C6: for valid inputs, unreported_head is in the interval from 0 up
to, excluding, capacity, and differs from unsynched_head by exactly the
unreported count modulo capacity, so the unreported region immediately
precedes the unsynchronized region in the ring. -/
theorem unreported_head_precedes_unsynched_region
    (ur us tail cap : Int) (h1 : 0 ≤ us) (h2 : us < cap)
    (h3 : 0 ≤ ur) (h4 : ur ≤ cap) (h5 : 0 ≤ tail) (h6 : tail < cap) :
    0 ≤ unreported_head ur us tail cap ∧
    unreported_head ur us tail cap < cap ∧
    Int.tmod (unreported_head ur us tail cap + ur) cap =
      unsynched_head us tail cap := by
  have hcap : 0 < cap := lt_of_le_of_lt h1 h2
  have hne : cap ≠ 0 := ne_of_gt hcap
  have harg : 0 ≤ (tail - us - 1) + 2 * cap := by omega
  have hh : unsynched_head us tail cap =
      ((tail - us - 1) + 2 * cap) % cap := by
    unfold unsynched_head
    exact tmod_eq_emod_of_nonneg _ _ harg (le_of_lt hcap)
  have hlo : 0 ≤ unsynched_head us tail cap := by
    rw [hh]; exact Int.emod_nonneg _ hne
  have hhi : unsynched_head us tail cap < cap := by
    rw [hh]; exact Int.emod_lt_of_pos _ hcap
  have harg2 : 0 ≤ (unsynched_head us tail cap - ur) + cap := by omega
  have hh2 : unreported_head ur us tail cap =
      ((unsynched_head us tail cap - ur) + cap) % cap := by
    unfold unreported_head
    exact tmod_eq_emod_of_nonneg _ _ harg2 (le_of_lt hcap)
  have hlo2 : 0 ≤ unreported_head ur us tail cap := by
    rw [hh2]; exact Int.emod_nonneg _ hne
  have hhi2 : unreported_head ur us tail cap < cap := by
    rw [hh2]; exact Int.emod_lt_of_pos _ hcap
  refine ⟨hlo2, hhi2, ?_⟩
  rw [tmod_eq_emod_of_nonneg _ _ (by omega) (le_of_lt hcap), hh2,
      Int.emod_add_emod]
  have he : unsynched_head us tail cap - ur + cap + ur =
      unsynched_head us tail cap + cap * 1 := by ring
  rw [he, Int.add_mul_emod_self_left, Int.emod_eq_of_lt hlo hhi]

/-- Witness for C6: unreported 4, unsynched 3, tail 2, capacity 8. -/
theorem unreported_head_precedes_unsynched_region_witness :
    0 ≤ unreported_head 4 3 2 8 ∧ unreported_head 4 3 2 8 < 8 ∧
    Int.tmod (unreported_head 4 3 2 8 + 4) 8 = unsynched_head 3 2 8 :=
  unreported_head_precedes_unsynched_region 4 3 2 8 (by norm_num)
    (by norm_num) (by norm_num) (by norm_num) (by norm_num) (by norm_num)

/-- Size of the two capture logs in both iterations. -/
def LOG_SIZE : Nat := 128

/-- Global capture and synchronization state of one node in the final
iteration (src/unnamed/part_002): the two logs with their head and tail
indices and the two backlog counters (C ints). -/
structure Node where
  our_log : List Nat
  their_log : List Nat
  our_log_head : Nat
  our_log_tail : Nat
  their_log_head : Nat
  their_log_tail : Nat
  bytes_unsynched : Int
  bytes_unreported : Int
deriving DecidableEq

/-- Embedding of the SPI interrupt handler of src/unnamed/part_002
(lines 273-284): when the log is full the byte is dropped and one
slow-sync fault is signalled (the second component counts fault
signals); otherwise the byte is stored at the tail, the tail advances
modulo LOG_SIZE, and the unsynchronized count is incremented. -/
def isr_spi_stc (b : Nat) (s : Node) : Node × Nat :=
  if s.our_log_head = (s.our_log_tail + 1) % LOG_SIZE then (s, 1)
  else
    ({ s with our_log := s.our_log.set s.our_log_tail b,
              our_log_tail := (s.our_log_tail + 1) % LOG_SIZE,
              bytes_unsynched := s.bytes_unsynched + 1 }, 0)

/-- Capture state of the earlier iteration in src/spi_sniff.ino: a
linear position into the log and an 8-bit unsynchronized counter. -/
structure InoState where
  our_log : List Nat
  our_log_pos : Nat
  bytes_unsynced : Nat
deriving DecidableEq

/-- Embedding of the SPI interrupt handler of src/spi_sniff.ino (lines
119-131): when the position has reached LOG_SIZE it is reset to 0 and a
slow-sync fault is signalled, then the byte is stored at the position
unconditionally, the position advances, and the 8-bit unsynchronized
counter is incremented and clamped to LOG_SIZE. -/
def isr_spi_stc_ino (b : Nat) (s : InoState) : InoState × Nat :=
  let reset := if s.our_log_pos = LOG_SIZE then (0, 1) else (s.our_log_pos, 0)
  let u0 := (s.bytes_unsynced + 1) % 256
  let u := if LOG_SIZE < u0 then LOG_SIZE else u0
  (⟨s.our_log.set reset.1 b, reset.1 + 1, u⟩, reset.2)

/-- C7 (counterexample): the interrupt handler of the spi_sniff.ino
iteration does not drop the byte when the log is full; at the full
state with position 128 it stores the byte into slot 0, overwriting an
existing slot, and changes the position, contradicting the claim that
no state mutation other than the fault occurs. -/
theorem ino_isr_stores_byte_when_full :
    (isr_spi_stc_ino 171 ⟨List.replicate 128 0, 128, 128⟩).2 = 1 ∧
    (isr_spi_stc_ino 171 ⟨List.replicate 128 0, 128, 128⟩).1.our_log.getD 0 0
      = 171 ∧
    (List.replicate 128 0 : List Nat).getD 0 0 = 0 ∧
    (isr_spi_stc_ino 171 ⟨List.replicate 128 0, 128, 128⟩).1 ≠
      ⟨List.replicate 128 0, 128, 128⟩ := by
  decide

/-- C7 (amended, holds for the final iteration in part_002): when the
log is full the handler drops the byte, signals exactly one slow-sync
fault, and performs no other state mutation; when the log is not full
it appends the byte at the tail, advances the tail, increments the
unsynchronized count, and signals no fault. -/
theorem isr_drops_when_full_appends_otherwise (b : Nat) (s : Node) :
    (s.our_log_head = (s.our_log_tail + 1) % LOG_SIZE →
      isr_spi_stc b s = (s, 1)) ∧
    (s.our_log_head ≠ (s.our_log_tail + 1) % LOG_SIZE →
      isr_spi_stc b s =
        ({ s with our_log := s.our_log.set s.our_log_tail b,
                  our_log_tail := (s.our_log_tail + 1) % LOG_SIZE,
                  bytes_unsynched := s.bytes_unsynched + 1 }, 0)) := by
  constructor
  · intro h; simp [isr_spi_stc, h]
  · intro h; simp [isr_spi_stc, h]

/-- Witness for the amended C7: a full state (head 1, tail 0) and a
non-full state (head 0, tail 0). -/
theorem isr_drops_when_full_appends_otherwise_witness :
    isr_spi_stc 7 ⟨[0], [0], 1, 0, 0, 0, 0, 0⟩ =
      (⟨[0], [0], 1, 0, 0, 0, 0, 0⟩, 1) ∧
    isr_spi_stc 7 ⟨[0], [0], 0, 0, 0, 0, 0, 0⟩ =
      (⟨([0] : List Nat).set 0 7, [0], 0, 1 % LOG_SIZE, 0, 0, 0 + 1, 0⟩, 0) :=
  ⟨(isr_drops_when_full_appends_otherwise 7 ⟨[0], [0], 1, 0, 0, 0, 0, 0⟩).1
      (by decide),
   (isr_drops_when_full_appends_otherwise 7 ⟨[0], [0], 0, 0, 0, 0, 0, 0⟩).2
      (by decide)⟩

/-- Node identity (enum id in the source). -/
inductive NodeId where
  | alpha
  | beta
deriving DecidableEq

/-- One iteration of the receive loop shared by alpha_synchronize and
beta_synchronize_rx: when the their-log is not full the byte is
appended and its tail advances, otherwise the byte is dropped and one
slow-dump fault is signalled (the second component). -/
def their_append (b : Nat) (s : Node) : Node × Nat :=
  if s.their_log_head ≠ (s.their_log_tail + 1) % LOG_SIZE then
    ({ s with their_log := s.their_log.set s.their_log_tail b,
              their_log_tail := (s.their_log_tail + 1) % LOG_SIZE }, 0)
  else (s, 1)

/-- The full receive loop over the bytes the transport delivered, in
order. Results: the state after the loop, the number of loop iterations
(the value of the bytes_synched counter incremented once per delivered
byte, dropped or not), and the number of slow-dump faults. -/
def recv_all (bs : List Nat) (s : Node) : Node × Nat × Nat :=
  match bs with
  | [] => (s, 0, 0)
  | b :: rest =>
    let r1 := their_append b s
    let r2 := recv_all rest r1.1
    (r2.1, r2.2.1 + 1, r2.2.2 + r1.2)

/-- Result of one alpha synchronization round: the returned count, the
state after the round, the number of slow-dump faults, and whether the
unsynchronized fault was signalled. -/
structure SyncOut where
  ret : Int
  state : Node
  slowdump : Nat
  unsynchronized : Bool
deriving DecidableEq

/-- Embedding of alpha_synchronize from src/unnamed/part_002 (lines
291-345). The delivered list holds the bytes the I2C transport supplies
after the busy wait; the function bails when the node is not alpha or
has no unsynchronized bytes, otherwise it drains the delivered bytes
into the their-log, counts them in bytes_synched, signals the
unsynchronized fault when that count differs from bytes_unsynched,
subtracts the received count from bytes_unsynched and adds it to
bytes_unreported. Transmission of its own bytes over the wire does not
change node state. -/
def alpha_synchronize (our_id : NodeId) (delivered : List Nat) (s : Node) :
    SyncOut :=
  if our_id ≠ NodeId.alpha then ⟨0, s, 0, false⟩
  else if s.bytes_unsynched = 0 then ⟨0, s, 0, false⟩
  else
    let r := recv_all delivered s
    let n : Int := r.2.1
    ⟨n,
     { r.1 with bytes_unsynched := r.1.bytes_unsynched - n,
                bytes_unreported := r.1.bytes_unreported + n },
     r.2.2,
     decide (r.1.bytes_unsynched ≠ n)⟩

/-- Embedding of beta_synchronize_rx from src/unnamed/part_002 (lines
359-380): the bytes_synched argument is the received count the Wire
library passes to the onReceive callback; the function drains the
delivered bytes into the their-log, signals the unsynchronized fault
when bytes_unsynched differs from bytes_synched, then subtracts
bytes_synched from bytes_unsynched and adds it to bytes_unreported.
Results: state, slow-dump fault count, unsynchronized fault flag. -/
def beta_synchronize_rx (bytes_synched : Int) (delivered : List Nat)
    (s : Node) : Node × Nat × Bool :=
  let r := recv_all delivered s
  ({ r.1 with bytes_unsynched := r.1.bytes_unsynched - bytes_synched,
              bytes_unreported := r.1.bytes_unreported + bytes_synched },
   r.2.2,
   decide (r.1.bytes_unsynched ≠ bytes_synched))

theorem their_append_counts (b : Nat) (s : Node) :
    (their_append b s).1.bytes_unsynched = s.bytes_unsynched ∧
    (their_append b s).1.bytes_unreported = s.bytes_unreported ∧
    (their_append b s).1.our_log = s.our_log ∧
    (their_append b s).1.our_log_tail = s.our_log_tail := by
  unfold their_append
  split <;> simp

theorem recv_all_spec (bs : List Nat) (s : Node) :
    (recv_all bs s).2.1 = bs.length ∧
    (recv_all bs s).1.bytes_unsynched = s.bytes_unsynched ∧
    (recv_all bs s).1.bytes_unreported = s.bytes_unreported := by
  induction bs generalizing s with
  | nil => simp [recv_all]
  | cons b rest ih =>
    obtain ⟨hl, hu, hr⟩ := ih (their_append b s).1
    obtain ⟨ha, hb, _, _⟩ := their_append_counts b s
    refine ⟨?_, ?_, ?_⟩ <;> simp [recv_all, hl, hu, hr, ha, hb]

/-- C8: in a completed synchronization round where the node requested
its bytes_unsynched count and the transport delivered R bytes, the
bytes_synched count ends equal to R (every delivered byte counted, even
ones dropped into a full their-log), exactly R is subtracted from
bytes_unsynched and added to bytes_unreported, and the unsynchronized
fault is signalled exactly when R differs from the requested count;
identically for alpha_synchronize and for beta_synchronize_rx, whose
count argument is the delivered count supplied by the transport. -/
theorem synchronize_accounting_uses_received_count
    (our_id : NodeId) (delivered : List Nat) (s t : Node) (cnt : Int)
    (hid : our_id = NodeId.alpha) (hU : s.bytes_unsynched ≠ 0)
    (hcnt : cnt = (delivered.length : Int)) :
    ((alpha_synchronize our_id delivered s).ret = (delivered.length : Int) ∧
     (alpha_synchronize our_id delivered s).state.bytes_unsynched =
       s.bytes_unsynched - (delivered.length : Int) ∧
     (alpha_synchronize our_id delivered s).state.bytes_unreported =
       s.bytes_unreported + (delivered.length : Int) ∧
     ((alpha_synchronize our_id delivered s).unsynchronized = true ↔
       (delivered.length : Int) ≠ s.bytes_unsynched)) ∧
    ((beta_synchronize_rx cnt delivered t).1.bytes_unsynched =
       t.bytes_unsynched - (delivered.length : Int) ∧
     (beta_synchronize_rx cnt delivered t).1.bytes_unreported =
       t.bytes_unreported + (delivered.length : Int) ∧
     ((beta_synchronize_rx cnt delivered t).2.2 = true ↔
       (delivered.length : Int) ≠ t.bytes_unsynched)) := by
  subst hid
  subst hcnt
  obtain ⟨hl, hu, hr⟩ := recv_all_spec delivered s
  obtain ⟨hl2, hu2, hr2⟩ := recv_all_spec delivered t
  constructor
  · have hbail : ¬(NodeId.alpha ≠ NodeId.alpha) := by simp
    simp only [alpha_synchronize, if_neg hbail, if_neg hU]
    refine ⟨by simp [hl], by simp [hl, hu], by simp [hl, hr], ?_⟩
    simp [hl, hu, ne_comm]
  · unfold beta_synchronize_rx
    refine ⟨by simp [hl2, hu2], by simp [hl2, hr2], ?_⟩
    simp [hl2, hu2, ne_comm]

/-- Witness for C8: alpha with two unsynchronized bytes receives three
bytes; beta with two unsynchronized bytes receives the same three. -/
theorem synchronize_accounting_uses_received_count_witness :
    ((alpha_synchronize NodeId.alpha [1, 2, 3]
        ⟨[0], [0, 0, 0, 0], 0, 0, 0, 0, 2, 0⟩).ret = (3 : Int) ∧
     (alpha_synchronize NodeId.alpha [1, 2, 3]
        ⟨[0], [0, 0, 0, 0], 0, 0, 0, 0, 2, 0⟩).state.bytes_unsynched = 2 - 3 ∧
     (alpha_synchronize NodeId.alpha [1, 2, 3]
        ⟨[0], [0, 0, 0, 0], 0, 0, 0, 0, 2, 0⟩).state.bytes_unreported = 0 + 3 ∧
     ((alpha_synchronize NodeId.alpha [1, 2, 3]
        ⟨[0], [0, 0, 0, 0], 0, 0, 0, 0, 2, 0⟩).unsynchronized = true ↔
        (3 : Int) ≠ 2)) ∧
    ((beta_synchronize_rx 3 [1, 2, 3]
        ⟨[0], [0, 0, 0, 0], 0, 0, 0, 0, 2, 0⟩).1.bytes_unsynched = 2 - 3 ∧
     (beta_synchronize_rx 3 [1, 2, 3]
        ⟨[0], [0, 0, 0, 0], 0, 0, 0, 0, 2, 0⟩).1.bytes_unreported = 0 + 3 ∧
     ((beta_synchronize_rx 3 [1, 2, 3]
        ⟨[0], [0, 0, 0, 0], 0, 0, 0, 0, 2, 0⟩).2.2 = true ↔
        (3 : Int) ≠ 2)) :=
  synchronize_accounting_uses_received_count NodeId.alpha [1, 2, 3]
    ⟨[0], [0, 0, 0, 0], 0, 0, 0, 0, 2, 0⟩
    ⟨[0], [0, 0, 0, 0], 0, 0, 0, 0, 2, 0⟩ 3 rfl (by decide) (by decide)

/-- Embedding of the reporter section of loop in src/unnamed/part_002
(lines 451-470): when bytes_unreported is positive it walks
bytes_unreported positions forward from unreported_head and emits the
pair of log bytes at each position, ours first on alpha and theirs
first on beta. Results: the node state after the pass and the emitted
pairs. The loop-local bytes_reported counter is not part of node
state. -/
def loop_report (our_id : NodeId) (s : Node) : Node × List (Nat × Nat) :=
  if 0 < s.bytes_unreported then
    let start := unreported_head s.bytes_unreported s.bytes_unsynched
      (s.our_log_tail : Int) (LOG_SIZE : Int)
    (s, (List.range s.bytes_unreported.toNat).map fun i =>
      let idx := (Int.tmod (start + (i : Int)) (LOG_SIZE : Int)).toNat
      if our_id = NodeId.alpha then
        (s.our_log.getD idx 0, s.their_log.getD idx 0)
      else
        (s.their_log.getD idx 0, s.our_log.getD idx 0))
  else (s, [])

/-- C9: one reporter pass with a positive unreported backlog leaves
bytes_unreported, bytes_unsynched, the our-log tail and the contents of
both logs unchanged; the pass is a non-destructive peek and the next
pass re-emits the identical span. -/
theorem reporter_pass_nondestructive (our_id : NodeId) (s : Node)
    (h : 0 < s.bytes_unreported) :
    (loop_report our_id s).1 = s ∧
    (loop_report our_id s).1.bytes_unreported = s.bytes_unreported ∧
    (loop_report our_id s).1.bytes_unsynched = s.bytes_unsynched ∧
    (loop_report our_id s).1.our_log_tail = s.our_log_tail ∧
    (loop_report our_id s).1.our_log = s.our_log ∧
    (loop_report our_id s).1.their_log = s.their_log ∧
    (loop_report our_id ((loop_report our_id s).1)).2 =
      (loop_report our_id s).2 := by
  have h1 : (loop_report our_id s).1 = s := by
    unfold loop_report; split <;> rfl
  exact ⟨h1, by rw [h1], by rw [h1], by rw [h1], by rw [h1], by rw [h1],
         by rw [h1]⟩

/-- Witness for C9: alpha node with two unreported bytes. -/
theorem reporter_pass_nondestructive_witness :
    (loop_report NodeId.alpha ⟨[1, 2], [3, 4], 0, 1, 0, 1, 0, 2⟩).1 =
      ⟨[1, 2], [3, 4], 0, 1, 0, 1, 0, 2⟩ ∧
    (loop_report NodeId.alpha ⟨[1, 2], [3, 4], 0, 1, 0, 1, 0, 2⟩).1.bytes_unreported
      = 2 ∧
    (loop_report NodeId.alpha ⟨[1, 2], [3, 4], 0, 1, 0, 1, 0, 2⟩).1.bytes_unsynched
      = 0 ∧
    (loop_report NodeId.alpha ⟨[1, 2], [3, 4], 0, 1, 0, 1, 0, 2⟩).1.our_log_tail
      = 1 ∧
    (loop_report NodeId.alpha ⟨[1, 2], [3, 4], 0, 1, 0, 1, 0, 2⟩).1.our_log
      = [1, 2] ∧
    (loop_report NodeId.alpha ⟨[1, 2], [3, 4], 0, 1, 0, 1, 0, 2⟩).1.their_log
      = [3, 4] ∧
    (loop_report NodeId.alpha
        ((loop_report NodeId.alpha ⟨[1, 2], [3, 4], 0, 1, 0, 1, 0, 2⟩).1)).2 =
      (loop_report NodeId.alpha ⟨[1, 2], [3, 4], 0, 1, 0, 1, 0, 2⟩).2 :=
  reporter_pass_nondestructive NodeId.alpha
    ⟨[1, 2], [3, 4], 0, 1, 0, 1, 0, 2⟩ (by norm_num)

/-- Number of bytes a head and tail ring with LOG_SIZE slots currently
holds. -/
def held (head tail : Nat) : Nat := (tail + LOG_SIZE - head) % LOG_SIZE

/-- The zero-initialized node state at boot. -/
def initNode : Node :=
  ⟨List.replicate LOG_SIZE 0, List.replicate LOG_SIZE 0, 0, 0, 0, 0, 0, 0⟩

/-- One step of the capture path: either the SPI interrupt handler runs
on an arriving byte, or correct sync accounting removes some number of
bytes, at most the current backlog, from the unsynchronized count. -/
inductive CapStep : Node → Node → Prop where
  | capture (b : Nat) (s : Node) : CapStep s (isr_spi_stc b s).1
  | sync (k : Int) (s : Node) (h0 : 0 ≤ k) (hk : k ≤ s.bytes_unsynched) :
      CapStep s { s with bytes_unsynched := s.bytes_unsynched - k }

/-- Node states reachable from boot by capture and sync steps. -/
inductive CapReach : Node → Prop where
  | init : CapReach initNode
  | step {s t : Node} : CapReach s → CapStep s t → CapReach t

theorem cap_inv : ∀ {s : Node}, CapReach s →
    s.our_log_head < 128 ∧ s.our_log_tail < 128 ∧
    0 ≤ s.bytes_unsynched ∧
    s.bytes_unsynched ≤ (held s.our_log_head s.our_log_tail : Int) := by
  intro s0 h
  induction h with
  | init => simp [initNode, held, LOG_SIZE]
  | @step t u hr hstep ih =>
    obtain ⟨h1, h2, h3, h4⟩ := ih
    cases hstep with
    | capture b =>
      by_cases hfull : t.our_log_head = (t.our_log_tail + 1) % LOG_SIZE
      · have he : (isr_spi_stc b t).1 = t := by simp [isr_spi_stc, hfull]
        rw [he]; exact ⟨h1, h2, h3, h4⟩
      · have he : (isr_spi_stc b t).1 =
            { t with our_log := t.our_log.set t.our_log_tail b,
                     our_log_tail := (t.our_log_tail + 1) % LOG_SIZE,
                     bytes_unsynched := t.bytes_unsynched + 1 } := by
          simp [isr_spi_stc, hfull]
        rw [he]
        simp only [held, LOG_SIZE] at h4 hfull ⊢
        refine ⟨h1, by omega, by omega, ?_⟩
        omega
    | sync k h0 hk =>
      simp only [held, LOG_SIZE] at h4 ⊢
      exact ⟨h1, h2, by omega, by omega⟩

/-- C10: the capture-path logs refuse a byte exactly at the full
condition head equal to tail plus one modulo LOG_SIZE (for the our-log
in the interrupt handler and the their-log in the receive loop), so in
every reachable state the unsynchronized backlog is at most
LOG_SIZE - 1, one less than the declared size; the buff_write
primitive, in contrast, admits all capacity slots: at capacity 128 a
write at 127 unread items still succeeds, filling the buffer to 128,
and only then does a write fail. -/
theorem log_usable_capacity_one_less (s : Node) (h : CapReach s) :
    (0 ≤ s.bytes_unsynched ∧ s.bytes_unsynched ≤ 127) ∧
    (∀ (b : Nat) (t : Node),
      t.our_log_head = (t.our_log_tail + 1) % LOG_SIZE →
        isr_spi_stc b t = (t, 1)) ∧
    (∀ (b : Nat) (t : Node),
      t.their_log_head = (t.their_log_tail + 1) % LOG_SIZE →
        their_append b t = (t, 1)) ∧
    ((buff_write 0 128 ⟨[], 0, 127⟩).1 = true ∧
     unread (buff_write 0 128 ⟨[], 0, 127⟩).2 = 128 ∧
     (buff_write 0 128 ⟨[], 0, 128⟩).1 = false) := by
  obtain ⟨h1, h2, h3, h4⟩ := cap_inv h
  have hheld : held s.our_log_head s.our_log_tail < 128 :=
    Nat.mod_lt _ (by norm_num [LOG_SIZE])
  refine ⟨⟨h3, by omega⟩, ?_, ?_, by decide⟩
  · intro b t ht; simp [isr_spi_stc, ht]
  · intro b t ht; simp [their_append, ht]

/-- Witness for C10: the boot state is reachable, and a full our-log
state with head 1 and tail 0 makes the handler drop. -/
theorem log_usable_capacity_one_less_witness :
    (0 ≤ initNode.bytes_unsynched ∧ initNode.bytes_unsynched ≤ 127) ∧
    isr_spi_stc 9 ⟨[5], [5], 1, 0, 1, 0, 0, 0⟩ =
      (⟨[5], [5], 1, 0, 1, 0, 0, 0⟩, 1) :=
  ⟨(log_usable_capacity_one_less initNode CapReach.init).1,
   (log_usable_capacity_one_less initNode CapReach.init).2.1 9
     ⟨[5], [5], 1, 0, 1, 0, 0, 0⟩ (by decide)⟩

end PS2Sniff
